import Mathlib

/-!
Verification of the naming module of facet-dom (`src/facet-dom/src/naming.rs`).

Strings are modelled as `List Char`. Rust's `Cow<'_, str>` is modelled by an
inductive type keeping the borrowed/owned distinction observable, so that the
allocation behaviour of the source is part of the embedding.

The case-conversion routine used by the source (`heck::AsLowerCamelCase`) is a
third-party dependency whose code is not part of this repository; it is
modelled from the spec's description of the default naming convention
(lower-camel-case with word boundaries at separators, case changes and
digit/letter transitions). Case mapping is modelled for ASCII letters;
characters outside ASCII have no case and pass through unchanged.
-/

namespace FacetDom

/-- Rust `Cow<'a, str>`: either a borrowed reference to an existing string or
a newly allocated owned string. -/
inductive Cow where
  | borrowed (s : List Char)
  | owned (s : List Char)
deriving DecidableEq

/-- The string value carried by a `Cow`, forgetting the allocation behaviour. -/
def Cow.value : Cow → List Char
  | .borrowed s => s
  | .owned s => s

/-- Modelled from the spec: the separator characters of the default naming
convention (underscore, hyphen, whitespace); they mark word boundaries and are
removed by the transformation. -/
def isSeparator (c : Char) : Bool :=
  c = '_' || c = '-' || c.isWhitespace

/-- Modelled from the spec: a word boundary inside a separator-free chunk, as
determined by case changes and digit/letter transitions: a boundary falls
between a lowercase letter and an uppercase letter, and between a letter and a
digit in either order. -/
def wordBoundary (a b : Char) : Bool :=
  (a.isLower && b.isUpper) || (a.isAlpha && b.isDigit) || (a.isDigit && b.isAlpha)

/-- Modelled from the spec: split a string at separator characters, dropping
the separators themselves (empty chunks may result). -/
def splitOnSeparators : List Char → List (List Char)
  | [] => [[]]
  | c :: rest =>
    let tail := splitOnSeparators rest
    if isSeparator c then [] :: tail
    else
      match tail with
      | [] => [[c]]
      | w :: ws => (c :: w) :: ws

/-- Modelled from the spec: split a separator-free chunk at word boundaries
(case changes and digit/letter transitions). -/
def splitAtBoundaries : List Char → List (List Char)
  | [] => []
  | [c] => [[c]]
  | a :: b :: rest =>
    let tail := splitAtBoundaries (b :: rest)
    if wordBoundary a b then [a] :: tail
    else
      match tail with
      | [] => [[a]]
      | w :: ws => (a :: w) :: ws

/-- Modelled from the spec: the word segmentation used by the default naming
convention: split at separators and at word boundaries; separators and empty
chunks are dropped. -/
def words (s : List Char) : List (List Char) :=
  ((splitOnSeparators s).flatMap splitAtBoundaries).filter (fun w => w ≠ [])

/-- Lowercase an entire word (ASCII case mapping). -/
def lowerWord (w : List Char) : List Char :=
  w.map Char.toLower

/-- Capitalize a word: first character uppercased, the rest lowercased (ASCII
case mapping). -/
def capitalizeWord : List Char → List Char
  | [] => []
  | c :: cs => c.toUpper :: cs.map Char.toLower

/-- Modelled from the spec: the default naming convention transformation that
the source delegates to `heck::AsLowerCamelCase`: the first word is
lowercased, subsequent words are capitalized, separators are removed. -/
def lowerCamelCase (s : List Char) : List Char :=
  match words s with
  | [] => []
  | w :: ws => lowerWord w ++ (ws.flatMap capitalizeWord)

/-- Rust `name.starts_with(|c: char| c.is_ascii_digit())`: does the string
start with an ASCII digit `0`..`9`? -/
def startsWithAsciiDigit : List Char → Bool
  | [] => false
  | c :: _ => c.isDigit

/-- `to_element_name` from `src/facet-dom/src/naming.rs`: if the input starts
with an ASCII digit, return an owned string prepending one underscore;
otherwise compute the lower-camel-case conversion, return the input borrowed
when the conversion equals it, and the owned conversion otherwise. -/
def to_element_name (name : List Char) : Cow :=
  if startsWithAsciiDigit name then Cow.owned ('_' :: name)
  else if lowerCamelCase name = name then Cow.borrowed name
  else Cow.owned (lowerCamelCase name)

/-- `dom_key` from `src/facet-dom/src/naming.rs`: when an override is present
return it borrowed and verbatim, otherwise delegate to `to_element_name`. -/
def dom_key (name : List Char) (rename : Option (List Char)) : Cow :=
  match rename with
  | some r => Cow.borrowed r
  | none => to_element_name name

example : lowerCamelCase "Banana".toList = "banana".toList := by decide
example : lowerCamelCase "MyPlaylist".toList = "myPlaylist".toList := by decide
example : lowerCamelCase "field_name".toList = "fieldName".toList := by decide
example : lowerCamelCase "myPlaylist".toList = "myPlaylist".toList := by decide
example : lowerCamelCase "_0".toList = "0".toList := by decide

/-- Claim C1: the spec claims the output of `to_element_name` never starts
with an ASCII digit. The code violates this at input `"_0"`: the input does
not start with an ASCII digit, so it goes through the case conversion, which
drops the leading underscore as a separator and produces `"0"` — a string
that starts with an ASCII digit and is therefore not a valid XML element
name, contradicting the function's own documentation. -/
theorem to_element_name_digit_invariant_fails :
    startsWithAsciiDigit "_0".toList = false ∧
    to_element_name "_0".toList = Cow.owned "0".toList ∧
    startsWithAsciiDigit (to_element_name "_0".toList).value = true := by
  refine ⟨by decide, by decide, by decide⟩

/-- Claim C2: when the first character of the input is an ASCII digit,
`to_element_name` returns a freshly owned string consisting of exactly one
underscore followed by the unchanged input; no case conversion is applied in
this branch. -/
theorem to_element_name_digit_branch (name : List Char)
    (h : startsWithAsciiDigit name = true) :
    to_element_name name = Cow.owned ('_' :: name) := by
  simp [to_element_name, h]

/-- Witness for claim C2 at the concrete input `"0"`: the hypothesis holds
and the result is the owned string `"_0"`. -/
theorem to_element_name_digit_branch_witness :
    startsWithAsciiDigit "0".toList = true ∧
    to_element_name "0".toList = Cow.owned ('_' :: "0".toList) :=
  ⟨by decide, to_element_name_digit_branch "0".toList (by decide)⟩

/-- Claim C3: when an override is supplied, `dom_key` returns exactly the
override, borrowed, with no convention applied and independently of the
first argument. -/
theorem dom_key_some (name r : List Char) :
    dom_key name (some r) = Cow.borrowed r := rfl

/-- Claim C4: without an override, `dom_key` returns exactly
`to_element_name name`, including the same borrowed-versus-owned behaviour. -/
theorem dom_key_none (name : List Char) :
    dom_key name none = to_element_name name := rfl

/-- Claim C5: on inputs that do not start with an ASCII digit,
`to_element_name` computes the lower-camel-case candidate, returns the input
borrowed when the candidate equals it by value, and returns the owned
candidate otherwise. -/
theorem to_element_name_convention_branch (name : List Char)
    (h : startsWithAsciiDigit name = false) :
    to_element_name name =
      (if lowerCamelCase name = name then Cow.borrowed name
       else Cow.owned (lowerCamelCase name)) := by
  simp [to_element_name, h]

/-- Witness for claim C5 at the concrete input `"Banana"`. -/
theorem to_element_name_convention_branch_witness :
    startsWithAsciiDigit "Banana".toList = false ∧
    to_element_name "Banana".toList =
      (if lowerCamelCase "Banana".toList = "Banana".toList
       then Cow.borrowed "Banana".toList
       else Cow.owned (lowerCamelCase "Banana".toList)) :=
  ⟨by decide, to_element_name_convention_branch "Banana".toList (by decide)⟩

/-- Claim C6: `to_element_name` and `dom_key` are total: for every input
string (empty, all-digit, non-ASCII included) and every optional override
they produce a well-defined result. In the embedding both are total Lean
functions, so their results always exist; there is no failure mode. -/
theorem naming_functions_total (name : List Char) (rename : Option (List Char)) :
    ∃ t u : Cow, to_element_name name = t ∧ dom_key name rename = u :=
  ⟨_, _, rfl, rfl⟩

/-- Claim C7: only ASCII digits `0`..`9` as first character trigger the
underscore branch: for any other first character — including a digit of a
non-ASCII script — the input goes through the convention transform instead. -/
theorem to_element_name_non_ascii_first (c : Char) (s : List Char)
    (h : c.isDigit = false) :
    to_element_name (c :: s) =
      (if lowerCamelCase (c :: s) = c :: s then Cow.borrowed (c :: s)
       else Cow.owned (lowerCamelCase (c :: s))) := by
  simp [to_element_name, startsWithAsciiDigit, h]

/-- Witness for claim C7 at the ARABIC-INDIC DIGIT ZERO (U+0660), a digit of
a non-ASCII script: the underscore branch is not taken and the input passes
through the convention transform (which leaves it unchanged, so it comes
back borrowed). -/
theorem to_element_name_non_ascii_first_witness :
    Char.isDigit '٠' = false ∧
    to_element_name ['٠'] =
      (if lowerCamelCase ['٠'] = ['٠'] then Cow.borrowed ['٠']
       else Cow.owned (lowerCamelCase ['٠'])) :=
  ⟨by decide, to_element_name_non_ascii_first '٠' [] (by decide)⟩

/-- Claim C8: an input already in lower-camel-case form with no leading ASCII
digit (the convention transform maps it to itself) takes the zero-allocation
path: the result is the borrowed variant referencing the original input. -/
theorem to_element_name_zero_alloc (name : List Char)
    (h : startsWithAsciiDigit name = false)
    (hfix : lowerCamelCase name = name) :
    to_element_name name = Cow.borrowed name := by
  simp [to_element_name, h, hfix]

/-- Witness for claim C8 at the concrete input `"myPlaylist"`. -/
theorem to_element_name_zero_alloc_witness :
    startsWithAsciiDigit "myPlaylist".toList = false ∧
    lowerCamelCase "myPlaylist".toList = "myPlaylist".toList ∧
    to_element_name "myPlaylist".toList = Cow.borrowed "myPlaylist".toList :=
  ⟨by decide, by decide,
    to_element_name_zero_alloc "myPlaylist".toList (by decide) (by decide)⟩

/-- Claim C9: `to_element_name` is not idempotent on digit-leading inputs:
for the input `"0"` the first application yields `"_0"`, and applying the
function again yields `"0"` (the conversion strips the underscore), which
differs from `"_0"`. -/
theorem to_element_name_not_idempotent :
    ∃ s : List Char, startsWithAsciiDigit s = true ∧
      (to_element_name (to_element_name s).value).value ≠ (to_element_name s).value :=
  ⟨"0".toList, by decide, by decide⟩

/-- Claim C10: a non-empty input consisting only of separator characters, such
as `"___"`, makes `to_element_name` return the empty string: the output can
be empty — hence not a valid markup name — even for non-empty input. -/
theorem to_element_name_empty_output :
    ∃ s : List Char, s ≠ [] ∧ (∀ c ∈ s, isSeparator c = true) ∧
      to_element_name s = Cow.owned [] :=
  ⟨"___".toList, by decide, by decide, by decide⟩

end FacetDom
